import Mathlib

/-
Verification of the rooster password-manager front end
(`src/main-rooster.rs` and `src/commands/change.rs`) against its
specification.  The store engine (`password::v2::PasswordStore`,
`password::upgrade`) is not part of the two source files; it appears
here only as opaque collaborators, modelled from the spec as pure
functions of (passphrase, bytes) that perform no file I/O of their
own (spec §4.6, §9: "the core itself must be a pure function of
(passphrase, bytes)"; `sync` alone performs the all-or-nothing write).
Bytes are `List Nat`, master passwords and file contents are explicit
values, and I/O results are `Except`.
-/

/-- One credential record, as in `password::v2::Password`:
name, username, password, created_at, updated_at. -/
structure Password where
  name : String
  username : String
  password : String
  created_at : Nat
  updated_at : Nat
deriving DecidableEq, Repr

/-- The transform closure the change command passes to
`change_password` (src/commands/change.rs lines 50-58): it rebuilds the
entry keeping name, username and created_at from the old entry, putting
the freshly prompted password in, and stamping updated_at with
`ffi::time()` (here the explicit `now`). -/
def change_transform (password_as_string : String) (now : Nat)
    (old_password : Password) : Password :=
  { name := old_password.name
    username := old_password.username
    password := password_as_string
    created_at := old_password.created_at
    updated_at := now }

/-- The slice of `getopts::Matches` the change command reads:
the free arguments and the `--show` flag. -/
structure Matches where
  free : List String
  opt_show : Bool
deriving DecidableEq, Repr

/-- Observable actions of the change command. -/
inductive CEv where
  | promptPassword
  | changePassword
deriving DecidableEq, Repr

/-- Collaborators of the change command.  `prompt_password` is the
result of `prompt_password_stderr`; `change_password` is the opaque
store-engine operation (spec §4.6: fails `NotFound` when the entry is
absent, otherwise replaces the entry with the transform result);
`copy_to_clipboard` only affects the printed message.  `now` is
`ffi::time()`. -/
structure ChangeEnv (Store : Type) where
  prompt_password : Except Unit String
  change_password : Store → String → (Password → Password) → Except Unit Store
  copy_to_clipboard : String → Except Unit Unit
  now : Nat

/-- `commands::change::callback_exec` (src/commands/change.rs lines
33-94): bail out with Err(1) when no app name was given, otherwise
prompt for the new password and call `change_password` with
`change_transform`.  The show/clipboard branch after a successful
change only prints and always yields Ok.  Returns the result, the
(possibly mutated) store, and the trace of actions taken. -/
def change_callback_exec {Store : Type} (env : ChangeEnv Store)
    (ms : Matches) (store : Store) :
    Except Int Unit × Store × List CEv :=
  if ms.free.length < 2 then
    (.error 1, store, [])
  else
    let app_name := ms.free.getD 1 ""
    match env.prompt_password with
    | .error _ => (.error 1, store, [CEv.promptPassword])
    | .ok password_as_string =>
      match env.change_password store app_name
          (change_transform password_as_string env.now) with
      | .ok store₂ => (.ok (), store₂, [CEv.promptPassword, CEv.changePassword])
      | .error _ => (.error 1, store, [CEv.promptPassword, CEv.changePassword])

/-- Identifies the `commands::*` module a table entry's callbacks come
from (the function pointers themselves live outside these two files). -/
inductive CommandModule where
  | get
  | add
  | delete
  | generate
  | regenerate
  | list
  | exportCmd
  | change_master_password
  | rename
  | change
  | search
deriving DecidableEq, Repr

/-- One entry of the static command table (src/main-rooster.rs lines
57-61): a name plus the exec and help callbacks of one command module. -/
structure Command where
  name : String
  callback_exec : CommandModule
  callback_help : CommandModule
deriving DecidableEq, Repr

/-- The static `COMMANDS` table (src/main-rooster.rs lines 63-118), in
source order. -/
def COMMANDS : List Command :=
  [ ⟨"get", .get, .get⟩,
    ⟨"add", .add, .add⟩,
    ⟨"delete", .delete, .delete⟩,
    ⟨"generate", .generate, .generate⟩,
    ⟨"regenerate", .regenerate, .regenerate⟩,
    ⟨"list", .list, .list⟩,
    ⟨"export", .exportCmd, .exportCmd⟩,
    ⟨"change-master-password", .change_master_password, .change_master_password⟩,
    ⟨"rename", .rename, .rename⟩,
    ⟨"change", .change, .change⟩,
    ⟨"search", .search, .search⟩ ]

/-- The linear scan inside `command_from_name` (src/main-rooster.rs
lines 120-127): first entry whose name matches, else none. -/
def find_command : List Command → String → Option Command
  | [], _ => none
  | c :: rest, name => if c.name = name then some c else find_command rest name

/-- `command_from_name` (src/main-rooster.rs lines 120-127). -/
def command_from_name (name : String) : Option Command :=
  find_command COMMANDS name

/-- The eleven command names, in table order. -/
def COMMAND_NAMES : List String :=
  ["get", "add", "delete", "generate", "regenerate", "list", "export",
   "change-master-password", "rename", "change", "search"]

/-- `std::env::VarError`. -/
inductive VarError where
  | NotPresent
  | NotUnicode
deriving DecidableEq, Repr

/-- `ROOSTER_FILE_DEFAULT` (src/main-rooster.rs line 53). -/
def ROOSTER_FILE_DEFAULT : String := ".passwords.rooster"

/-- `std::path::MAIN_SEPARATOR` on the unix targets rooster builds for. -/
def MAIN_SEPARATOR : Char := '/'

/-- `get_password_file_path` (src/main-rooster.rs lines 242-260).
`rooster_file` is the result of reading $ROOSTER_FILE; `home_dir` is
`env::home_dir()`, with the inner `Except` standing for
`into_string()` on the home path (fails when it is not unicode). -/
def get_password_file_path (rooster_file : Except VarError String)
    (home_dir : Option (Except Unit String)) : Except Int String :=
  match rooster_file with
  | .ok filename => .ok filename
  | .error .NotPresent =>
    match home_dir with
    | some home =>
      match home with
      | .ok filename => .ok ((filename.push MAIN_SEPARATOR) ++ ROOSTER_FILE_DEFAULT)
      | .error _ => .error 1
    | none => .error 1
  | .error .NotUnicode => .error 1

/-- Observable actions of `execute_command_from_filename`, in order of
occurrence: reading the file, the three ways of obtaining a store,
running the command callback, invoking `sync`, and the file write that
a successful `sync` performs. -/
inductive Ev where
  | readFile
  | storeNew
  | tryFromInput
  | tryUpgrade
  | execCallback
  | syncCall
  | fileWrite (bytes : List Nat)
deriving DecidableEq, Repr

/-- Collaborators of `execute_command_from_filename`.  `mp` is the
master password handed in by `main`; `read_to_end` the result of
reading the file.  `store_new`, `from_input` and `upgrade` are the
store-engine constructors (`password::v2::PasswordStore::new`,
`PasswordStore::from_input`, `password::upgrade`).
Modelled from the spec: these three constructors and `sync` are not
under src/; per spec §4.6 and §9 the constructors are pure functions of
(passphrase, bytes) and perform no file write, while `sync` performs
the single all-or-nothing write of the encoded store (its Ok result
here is the bytes written).  `callback_exec` is the chosen command's
callback, mutating the store or failing with an i32 code. -/
structure ExecEnv (Store : Type) where
  mp : String
  read_to_end : Except Unit (List Nat)
  store_new : String → Except Unit Store
  from_input : String → List Nat → Except Unit Store
  upgrade : String → List Nat → Except Unit Store
  callback_exec : Store → Except Int Store
  sync : Store → Except Unit (List Nat)

/-- The store-obtaining block of `execute_command_from_filename`
(src/main-rooster.rs lines 200-228): an empty input makes a fresh store
via `new`; otherwise `from_input` is tried first and `upgrade` only on
its failure; every failure collapses to Err(1).  Also returns the trace
of attempts made. -/
def loadStore {Store : Type} (env : ExecEnv Store) (input : List Nat) :
    Except Int Store × List Ev :=
  if input.isEmpty then
    match env.store_new env.mp with
    | .ok store => (.ok store, [Ev.storeNew])
    | .error _ => (.error 1, [Ev.storeNew])
  else
    match env.from_input env.mp input with
    | .ok store => (.ok store, [Ev.tryFromInput])
    | .error _ =>
      match env.upgrade env.mp input with
      | .ok store => (.ok store, [Ev.tryFromInput, Ev.tryUpgrade])
      | .error _ => (.error 1, [Ev.tryFromInput, Ev.tryUpgrade])

/-- `execute_command_from_filename` (src/main-rooster.rs lines
191-240): read the file, obtain the store, run the command callback,
then unconditionally `sync` the store back to the file; any stage's
failure aborts the rest.  Returns the result together with the trace of
observable actions. -/
def execute_command_from_filename {Store : Type} (env : ExecEnv Store) :
    Except Int Unit × List Ev :=
  match env.read_to_end with
  | .error _ => (.error 1, [Ev.readFile])
  | .ok input =>
    match loadStore env input with
    | (.error e, tr) => (.error e, Ev.readFile :: tr)
    | (.ok store, tr) =>
      match env.callback_exec store with
      | .error i => (.error i, Ev.readFile :: (tr ++ [Ev.execCallback]))
      | .ok store₂ =>
        match env.sync store₂ with
        | .ok bytes =>
          (.ok (), Ev.readFile :: (tr ++ [Ev.execCallback, Ev.syncCall, Ev.fileWrite bytes]))
        | .error _ =>
          (.error 1, Ev.readFile :: (tr ++ [Ev.execCallback, Ev.syncCall]))

/-- `main`'s mapping of the pipeline result to a process exit code
(src/main-rooster.rs lines 402-405). -/
def exit_code (r : Except Int Unit) : Int :=
  match r with
  | .ok _ => 0
  | .error i => i

/-- Modelled from the spec: the `list` command (spec §4.6) only prints
names and usernames and never mutates the store, so its callback
returns the store unchanged; its code is not under src/. -/
def list_callback_exec {Store : Type} : Store → Except Int Store :=
  fun store => .ok store

lemma exec_read_error {Store : Type} (env : ExecEnv Store)
    (h : env.read_to_end = .error ()) :
    execute_command_from_filename env = (.error 1, [Ev.readFile]) := by
  unfold execute_command_from_filename
  rw [h]

lemma exec_load_error {Store : Type} (env : ExecEnv Store) (input : List Nat)
    (e : Int) (hr : env.read_to_end = .ok input)
    (hl : (loadStore env input).1 = .error e) :
    execute_command_from_filename env =
      (.error e, Ev.readFile :: (loadStore env input).2) := by
  unfold execute_command_from_filename
  rw [hr]
  simp only []
  rcases hp : loadStore env input with ⟨r, tr⟩
  rw [hp] at hl
  have hl₂ : r = Except.error e := hl
  subst hl₂
  rfl

lemma exec_cb_error {Store : Type} (env : ExecEnv Store) (input : List Nat)
    (s : Store) (i : Int) (hr : env.read_to_end = .ok input)
    (hl : (loadStore env input).1 = .ok s)
    (hc : env.callback_exec s = .error i) :
    execute_command_from_filename env =
      (.error i, Ev.readFile :: ((loadStore env input).2 ++ [Ev.execCallback])) := by
  unfold execute_command_from_filename
  rw [hr]
  simp only []
  rcases hp : loadStore env input with ⟨r, tr⟩
  rw [hp] at hl
  have hl₂ : r = Except.ok s := hl
  subst hl₂
  simp [hc]

lemma exec_sync_error {Store : Type} (env : ExecEnv Store) (input : List Nat)
    (s s₂ : Store) (hr : env.read_to_end = .ok input)
    (hl : (loadStore env input).1 = .ok s)
    (hc : env.callback_exec s = .ok s₂)
    (hs : env.sync s₂ = .error ()) :
    execute_command_from_filename env =
      (.error 1,
       Ev.readFile :: ((loadStore env input).2 ++ [Ev.execCallback, Ev.syncCall])) := by
  unfold execute_command_from_filename
  rw [hr]
  simp only []
  rcases hp : loadStore env input with ⟨r, tr⟩
  rw [hp] at hl
  have hl₂ : r = Except.ok s := hl
  subst hl₂
  simp [hc, hs]

lemma exec_sync_ok {Store : Type} (env : ExecEnv Store) (input : List Nat)
    (s s₂ : Store) (b : List Nat) (hr : env.read_to_end = .ok input)
    (hl : (loadStore env input).1 = .ok s)
    (hc : env.callback_exec s = .ok s₂)
    (hs : env.sync s₂ = .ok b) :
    execute_command_from_filename env =
      (.ok (),
       Ev.readFile ::
         ((loadStore env input).2 ++
           [Ev.execCallback, Ev.syncCall, Ev.fileWrite b])) := by
  unfold execute_command_from_filename
  rw [hr]
  simp only []
  rcases hp : loadStore env input with ⟨r, tr⟩
  rw [hp] at hl
  have hl₂ : r = Except.ok s := hl
  subst hl₂
  simp [hc, hs]

/-- Every failing load collapses to the failure signal Err(1). -/
lemma loadStore_error_code {Store : Type} (env : ExecEnv Store)
    (input : List Nat) (e : Int) (hl : (loadStore env input).1 = .error e) :
    e = 1 := by
  unfold loadStore at hl
  by_cases hi : input.isEmpty <;> simp only [hi, if_true, if_false] at hl
  · cases hn : env.store_new env.mp <;> rw [hn] at hl <;> simp_all
  · cases hf : env.from_input env.mp input <;> rw [hf] at hl
    · cases hu : env.upgrade env.mp input <;> rw [hu] at hl <;> simp_all
    · simp_all

/-- The load block never invokes `sync`. -/
lemma syncCall_not_in_loadStore {Store : Type} (env : ExecEnv Store)
    (input : List Nat) : Ev.syncCall ∉ (loadStore env input).2 := by
  unfold loadStore
  by_cases hi : input.isEmpty <;> simp only [hi, if_true, if_false]
  · cases env.store_new env.mp <;> simp
  · cases env.from_input env.mp input
    · cases env.upgrade env.mp input <;> simp
    · simp

/-- The load block never writes the file. -/
lemma fileWrite_not_in_loadStore {Store : Type} (env : ExecEnv Store)
    (input : List Nat) (b : List Nat) :
    Ev.fileWrite b ∉ (loadStore env input).2 := by
  unfold loadStore
  by_cases hi : input.isEmpty <;> simp only [hi, if_true, if_false]
  · cases env.store_new env.mp <;> simp
  · cases env.from_input env.mp input
    · cases env.upgrade env.mp input <;> simp
    · simp

/-- A list is non-empty exactly when `isEmpty` is false. -/
lemma isEmpty_false_of_ne_nil {α : Type} (l : List α) (h : l ≠ []) :
    l.isEmpty = false := by
  cases l with
  | nil => exact absurd rfl h
  | cons a t => rfl

/-- When both decode attempts fail on a non-empty input, the load block
returns Err(1). -/
lemma loadStore_both_fail {Store : Type} (env : ExecEnv Store) (input : List Nat)
    (hne : input ≠ []) (hf : env.from_input env.mp input = .error ())
    (hu : env.upgrade env.mp input = .error ()) :
    (loadStore env input).1 = .error 1 := by
  have hni := isEmpty_false_of_ne_nil input hne
  simp [loadStore, hni, hf, hu]

/-- Claim C2: on a non-empty input the loader tries `from_input` first,
invokes `upgrade` exactly when the direct decode failed, and returns the
failure signal Err(1) when both attempts fail. -/
theorem loader_direct_decode_first {Store : Type} (env : ExecEnv Store)
    (input : List Nat) (hne : input ≠ []) :
    (loadStore env input).2.head? = some Ev.tryFromInput ∧
    (Ev.tryUpgrade ∈ (loadStore env input).2 ↔
      env.from_input env.mp input = .error ()) ∧
    (env.from_input env.mp input = .error () →
      env.upgrade env.mp input = .error () →
      (loadStore env input).1 = .error 1) := by
  have hni := isEmpty_false_of_ne_nil input hne
  rcases hf : env.from_input env.mp input with u | s
  · cases u
    rcases hu : env.upgrade env.mp input with u₂ | s₂
    · cases u₂
      simp [loadStore, hni, hf, hu]
    · simp [loadStore, hni, hf, hu]
  · simp [loadStore, hni, hf]

/-- Witness for `loader_direct_decode_first` on the concrete env
`c2_env` with input [5]. -/
def c2_env : ExecEnv Unit :=
  { mp := "mp"
    read_to_end := .ok [5]
    store_new := fun _ => .ok ()
    from_input := fun _ _ => .error ()
    upgrade := fun _ _ => .error ()
    callback_exec := fun store => .ok store
    sync := fun _ => .ok [] }

/-- Witness for `loader_direct_decode_first` at the concrete input [5]. -/
theorem loader_direct_decode_first_witness :
    (loadStore c2_env [5]).2.head? = some Ev.tryFromInput ∧
    (loadStore c2_env [5]).1 = Except.error 1 :=
  ⟨(loader_direct_decode_first c2_env [5] (by decide)).1,
   (loader_direct_decode_first c2_env [5] (by decide)).2.2 rfl rfl⟩

/-- Claim C3: an empty input makes the loader create a fresh store with
the given master password via `new`, with no decode attempt; decoding
only ever happens on non-empty input. -/
theorem empty_input_fresh_store {Store : Type} (env : ExecEnv Store) :
    ((loadStore env []).2 = [Ev.storeNew] ∧
     Ev.tryFromInput ∉ (loadStore env []).2 ∧
     Ev.tryUpgrade ∉ (loadStore env []).2 ∧
     (∀ s, env.store_new env.mp = .ok s → (loadStore env []).1 = .ok s)) ∧
    (∀ input, Ev.tryFromInput ∈ (loadStore env input).2 → input ≠ []) := by
  constructor
  · rcases hn : env.store_new env.mp with u | s
    · cases u
      simp [loadStore, hn]
    · simp [loadStore, hn]
  · intro input hmem
    cases input with
    | nil =>
      exfalso
      rcases hn : env.store_new env.mp with u | s
      · cases u
        simp [loadStore, hn] at hmem
      · simp [loadStore, hn] at hmem
    | cons a t => exact List.cons_ne_nil a t

/-- Concrete env for the `empty_input_fresh_store` witness. -/
def c3_env : ExecEnv Unit :=
  { mp := "mp"
    read_to_end := .ok []
    store_new := fun _ => .ok ()
    from_input := fun _ _ => .error ()
    upgrade := fun _ _ => .error ()
    callback_exec := fun store => .ok store
    sync := fun _ => .ok [] }

/-- Witness for `empty_input_fresh_store` on `c3_env`. -/
theorem empty_input_fresh_store_witness :
    (loadStore c3_env []).1 = Except.ok () ∧
    Ev.tryFromInput ∉ (loadStore c3_env []).2 :=
  ⟨(empty_input_fresh_store c3_env).1.2.2.2 () rfl,
   (empty_input_fresh_store c3_env).1.2.1⟩

/-- Claim C5: two runs on non-empty inputs whose direct decode and
upgrade both fail - for whatever different reasons - produce the same
observable failure value Err(1). -/
theorem load_failure_uniform_error {Store₁ Store₂ : Type}
    (env₁ : ExecEnv Store₁) (env₂ : ExecEnv Store₂) (input₁ input₂ : List Nat)
    (hr₁ : env₁.read_to_end = .ok input₁) (hn₁ : input₁ ≠ [])
    (hf₁ : env₁.from_input env₁.mp input₁ = .error ())
    (hu₁ : env₁.upgrade env₁.mp input₁ = .error ())
    (hr₂ : env₂.read_to_end = .ok input₂) (hn₂ : input₂ ≠ [])
    (hf₂ : env₂.from_input env₂.mp input₂ = .error ())
    (hu₂ : env₂.upgrade env₂.mp input₂ = .error ()) :
    (execute_command_from_filename env₁).1 = (execute_command_from_filename env₂).1 ∧
    (execute_command_from_filename env₁).1 = .error 1 := by
  have l₁ := loadStore_both_fail env₁ input₁ hn₁ hf₁ hu₁
  have l₂ := loadStore_both_fail env₂ input₂ hn₂ hf₂ hu₂
  rw [exec_load_error env₁ input₁ 1 hr₁ l₁, exec_load_error env₂ input₂ 1 hr₂ l₂]
  exact ⟨rfl, rfl⟩

/-- First concrete failing env for the `load_failure_uniform_error`
witness (think: wrong passphrase). -/
def c5_env₁ : ExecEnv Unit :=
  { mp := "guess"
    read_to_end := .ok [7]
    store_new := fun _ => .ok ()
    from_input := fun _ _ => .error ()
    upgrade := fun _ _ => .error ()
    callback_exec := fun store => .ok store
    sync := fun _ => .ok [] }

/-- Second concrete failing env for the `load_failure_uniform_error`
witness (think: corrupted bytes). -/
def c5_env₂ : ExecEnv Unit :=
  { mp := "other"
    read_to_end := .ok [2, 0, 0, 255]
    store_new := fun _ => .ok ()
    from_input := fun _ _ => .error ()
    upgrade := fun _ _ => .error ()
    callback_exec := fun store => .ok store
    sync := fun _ => .ok [1] }

/-- Witness for `load_failure_uniform_error` on two concrete envs that
fail differently. -/
theorem load_failure_uniform_error_witness :
    (execute_command_from_filename c5_env₁).1 = (execute_command_from_filename c5_env₂).1 ∧
    (execute_command_from_filename c5_env₁).1 = .error 1 :=
  load_failure_uniform_error c5_env₁ c5_env₂ [7] [2, 0, 0, 255] rfl (by decide)
    rfl rfl rfl (by decide) rfl rfl

/-- Claim C6: a failure while reading, loading or running the command
callback means `sync` is never invoked and the run fails with a nonzero
signal; the run exits 0 exactly when the callback and the subsequent
`sync` both succeed.  The hypothesis that callback error codes are
nonzero holds for the one command under src/ (change returns only
Err(1)) and is the spec contract (§6) for the others. -/
theorem pipeline_failure_aborts {Store : Type} (env : ExecEnv Store)
    (hcb : ∀ s i, env.callback_exec s = .error i → i ≠ 0) :
    (env.read_to_end = .error () →
      (execute_command_from_filename env).1 = .error 1 ∧
      Ev.syncCall ∉ (execute_command_from_filename env).2) ∧
    (∀ input e, env.read_to_end = .ok input → (loadStore env input).1 = .error e →
      (execute_command_from_filename env).1 = .error 1 ∧
      Ev.syncCall ∉ (execute_command_from_filename env).2) ∧
    (∀ input s i, env.read_to_end = .ok input → (loadStore env input).1 = .ok s →
      env.callback_exec s = .error i →
      (execute_command_from_filename env).1 = .error i ∧ i ≠ 0 ∧
      Ev.syncCall ∉ (execute_command_from_filename env).2) ∧
    ((execute_command_from_filename env).1 = .ok () ↔
      ∃ input s s₂ b, env.read_to_end = .ok input ∧
        (loadStore env input).1 = .ok s ∧
        env.callback_exec s = .ok s₂ ∧ env.sync s₂ = .ok b) ∧
    (exit_code (execute_command_from_filename env).1 = 0 ↔
      (execute_command_from_filename env).1 = .ok ()) := by
  have key : ((execute_command_from_filename env).1 = .ok () ∧
      ∃ input s s₂ b, env.read_to_end = .ok input ∧
        (loadStore env input).1 = .ok s ∧
        env.callback_exec s = .ok s₂ ∧ env.sync s₂ = .ok b) ∨
      (∃ i, (execute_command_from_filename env).1 = .error i ∧ i ≠ 0) := by
    rcases hr : env.read_to_end with u | input
    · cases u
      rw [exec_read_error env hr]
      exact Or.inr ⟨1, rfl, by decide⟩
    · rcases hl : (loadStore env input).1 with e | s
      · have he := loadStore_error_code env input e hl
        subst he
        rw [exec_load_error env input 1 hr hl]
        exact Or.inr ⟨1, rfl, by decide⟩
      · rcases hc : env.callback_exec s with i | s₂
        · rw [exec_cb_error env input s i hr hl hc]
          exact Or.inr ⟨i, rfl, hcb s i hc⟩
        · rcases hs : env.sync s₂ with u | b
          · cases u
            rw [exec_sync_error env input s s₂ hr hl hc hs]
            exact Or.inr ⟨1, rfl, by decide⟩
          · rw [exec_sync_ok env input s s₂ b hr hl hc hs]
            exact Or.inl ⟨rfl, input, s, s₂, b, rfl, hl, hc, hs⟩
  refine ⟨?_, ?_, ?_, ?_, ?_⟩
  · intro h
    rw [exec_read_error env h]
    exact ⟨rfl, by decide⟩
  · intro input e hr hl
    have he := loadStore_error_code env input e hl
    subst he
    rw [exec_load_error env input 1 hr hl]
    refine ⟨rfl, ?_⟩
    simp [syncCall_not_in_loadStore env input]
  · intro input s i hr hl hc
    rw [exec_cb_error env input s i hr hl hc]
    refine ⟨rfl, hcb s i hc, ?_⟩
    simp [syncCall_not_in_loadStore env input]
  · constructor
    · intro hok
      rcases key with ⟨_, hw⟩ | ⟨i, hi, _⟩
      · exact hw
      · rw [hi] at hok
        exact Except.noConfusion hok
    · rintro ⟨input, s, s₂, b, hr, hl, hc, hs⟩
      rw [exec_sync_ok env input s s₂ b hr hl hc hs]
  · constructor
    · intro h0
      rcases key with ⟨hok, _⟩ | ⟨i, hi, hne⟩
      · exact hok
      · exfalso
        rw [hi] at h0
        exact hne h0
    · intro hok
      rw [hok]
      rfl

/-- Concrete all-success env for the `pipeline_failure_aborts` witness. -/
def c6_env : ExecEnv Unit :=
  { mp := "mp"
    read_to_end := .ok []
    store_new := fun _ => .ok ()
    from_input := fun _ _ => .error ()
    upgrade := fun _ _ => .error ()
    callback_exec := fun store => .ok store
    sync := fun _ => .ok [3] }

/-- Witness for `pipeline_failure_aborts`: the all-success run exits 0. -/
theorem pipeline_failure_aborts_witness :
    exit_code (execute_command_from_filename c6_env).1 = 0 := by
  have h := pipeline_failure_aborts c6_env (fun s i hc => Except.noConfusion hc)
  exact h.2.2.2.2.mpr (h.2.2.2.1.mpr ⟨[], (), (), [3], rfl, rfl, rfl, rfl⟩)

/-- Claim C1 (amended): loading a store - including through the
upgrader - never writes the file; every file write comes from a
successful `sync`.  But `execute_command_from_filename` invokes `sync`
after every successful command callback, read-only ones included, so a
successful run always rewrites the file. -/
theorem file_write_only_in_sync {Store : Type} (env : ExecEnv Store) :
    (∀ input b, Ev.fileWrite b ∉ (loadStore env input).2) ∧
    (∀ b, Ev.fileWrite b ∈ (execute_command_from_filename env).2 →
      ∃ s₂, env.sync s₂ = .ok b) ∧
    (∀ input s s₂, env.read_to_end = .ok input →
      (loadStore env input).1 = .ok s → env.callback_exec s = .ok s₂ →
      Ev.syncCall ∈ (execute_command_from_filename env).2 ∧
      ∀ b, env.sync s₂ = .ok b →
        Ev.fileWrite b ∈ (execute_command_from_filename env).2) := by
  refine ⟨fun input b => fileWrite_not_in_loadStore env input b, ?_, ?_⟩
  · intro b hmem
    rcases hr : env.read_to_end with u | input
    · cases u
      rw [exec_read_error env hr] at hmem
      simp at hmem
    · rcases hl : (loadStore env input).1 with e | s
      · rw [exec_load_error env input e hr hl] at hmem
        simp [fileWrite_not_in_loadStore env input b] at hmem
      · rcases hc : env.callback_exec s with i | s₂
        · rw [exec_cb_error env input s i hr hl hc] at hmem
          simp [fileWrite_not_in_loadStore env input b] at hmem
        · rcases hs : env.sync s₂ with u | b₂
          · cases u
            rw [exec_sync_error env input s s₂ hr hl hc hs] at hmem
            simp [fileWrite_not_in_loadStore env input b] at hmem
          · rw [exec_sync_ok env input s s₂ b₂ hr hl hc hs] at hmem
            simp [fileWrite_not_in_loadStore env input b] at hmem
            subst hmem
            exact ⟨s₂, hs⟩
  · intro input s s₂ hr hl hc
    rcases hs : env.sync s₂ with u | b₂
    · cases u
      rw [exec_sync_error env input s s₂ hr hl hc hs]
      refine ⟨by simp, ?_⟩
      intro b hb
      exact Except.noConfusion hb
    · rw [exec_sync_ok env input s s₂ b₂ hr hl hc hs]
      refine ⟨by simp, ?_⟩
      intro b hb
      injection hb with hbb
      subst hbb
      simp

/-- Concrete env for claim C1: a store that loads through the upgrader,
then runs the read-only list command, with a succeeding `sync`. -/
def c1_env : ExecEnv Unit :=
  { mp := "secret"
    read_to_end := .ok [1, 2, 3]
    store_new := fun _ => .error ()
    from_input := fun _ _ => .error ()
    upgrade := fun _ _ => .ok ()
    callback_exec := list_callback_exec
    sync := fun _ => .ok [9, 9] }

/-- Claim C1 counterexample: on `c1_env` the load goes through the
upgrader, the read-only list command succeeds, and the run still ends
with the file being rewritten, because
`execute_command_from_filename` syncs after every successful command
(src/main-rooster.rs line 233). -/
theorem readonly_run_rewrites_file :
    Ev.tryUpgrade ∈ (execute_command_from_filename c1_env).2 ∧
    (execute_command_from_filename c1_env).1 = Except.ok () ∧
    Ev.fileWrite [9, 9] ∈ (execute_command_from_filename c1_env).2 :=
  ⟨by decide, rfl, by decide⟩

/-- Witness for `file_write_only_in_sync` on `c1_env`. -/
theorem file_write_only_in_sync_witness :
    Ev.syncCall ∈ (execute_command_from_filename c1_env).2 :=
  ((file_write_only_in_sync c1_env).2.2 [1, 2, 3] () () rfl rfl rfl).1

/-- Claim C4: the transform the change command hands to
`change_password` keeps the entry's name, username and created_at,
replaces the password with the newly prompted one, and sets updated_at
to the current time. -/
theorem change_transform_fields (pw : String) (now : Nat) (old : Password) :
    (change_transform pw now old).name = old.name ∧
    (change_transform pw now old).username = old.username ∧
    (change_transform pw now old).created_at = old.created_at ∧
    (change_transform pw now old).password = pw ∧
    (change_transform pw now old).updated_at = now :=
  ⟨rfl, rfl, rfl, rfl, rfl⟩

/-- Claim C9: with fewer than two free arguments the change command
fails with Err(1), performs no prompt and no `change_password` call,
and leaves the store unchanged. -/
theorem change_missing_app_name_fails {Store : Type} (env : ChangeEnv Store)
    (ms : Matches) (store : Store) (h : ms.free.length < 2) :
    change_callback_exec env ms store = (.error 1, store, []) := by
  simp [change_callback_exec, h]

/-- Witness for `change_missing_app_name_fails` at a concrete
invocation with only the command word as free argument. -/
theorem change_missing_app_name_fails_witness :
    change_callback_exec
      (⟨.ok "pw", fun s _ _ => .ok s, fun _ => .ok (), 7⟩ : ChangeEnv Unit)
      ⟨["change"], false⟩ () = (.error 1, (), []) :=
  change_missing_app_name_fails _ _ _ (by decide)

/-- Claim C8: $ROOSTER_FILE set to a unicode value is used verbatim;
with the variable absent the path is the home directory, the path
separator and ".passwords.rooster"; a non-unicode variable or a
missing home directory is an error. -/
theorem password_file_path_resolution :
    (∀ v home, get_password_file_path (.ok v) home = .ok v) ∧
    (∀ h, get_password_file_path (.error .NotPresent) (some (.ok h)) =
      .ok ((h.push MAIN_SEPARATOR) ++ ROOSTER_FILE_DEFAULT)) ∧
    (∀ home, get_password_file_path (.error .NotUnicode) home = .error 1) ∧
    (get_password_file_path (.error .NotPresent) none = .error 1) :=
  ⟨fun _ _ => rfl, fun _ => rfl, fun _ => rfl, rfl⟩

/-- The linear scan finds an entry exactly when the queried name occurs
among the entry names. -/
lemma find_command_isSome_iff (l : List Command) (name : String) :
    (find_command l name).isSome ↔ name ∈ l.map Command.name := by
  induction l with
  | nil => simp [find_command]
  | cons c rest ih =>
    by_cases h : c.name = name
    · simp [find_command, h]
    · simp only [find_command, h, if_false, ih, List.map_cons, List.mem_cons]
      constructor
      · exact Or.inr
      · rintro (rfl | hm)
        · exact absurd rfl h
        · exact hm

/-- The linear scan only returns entries whose name is the queried one. -/
lemma find_command_name_eq (l : List Command) (name : String) (c : Command) :
    find_command l name = some c → c.name = name := by
  induction l with
  | nil => simp [find_command]
  | cons d rest ih =>
    by_cases h : d.name = name
    · simp only [find_command, h, if_true]
      rintro hdc
      cases hdc
      exact h
    · simpa only [find_command, h, if_false] using ih

/-- Claim C7: `command_from_name` succeeds exactly on the eleven
registered names, the returned entry carries the queried name, and each
of the eleven names maps to the entry registered under it. -/
theorem command_table_exact (name : String) :
    ((command_from_name name).isSome ↔ name ∈ COMMAND_NAMES) ∧
    (∀ c, command_from_name name = some c → c.name = name) ∧
    (command_from_name "get" = some ⟨"get", .get, .get⟩ ∧
     command_from_name "add" = some ⟨"add", .add, .add⟩ ∧
     command_from_name "delete" = some ⟨"delete", .delete, .delete⟩ ∧
     command_from_name "generate" = some ⟨"generate", .generate, .generate⟩ ∧
     command_from_name "regenerate" = some ⟨"regenerate", .regenerate, .regenerate⟩ ∧
     command_from_name "list" = some ⟨"list", .list, .list⟩ ∧
     command_from_name "export" = some ⟨"export", .exportCmd, .exportCmd⟩ ∧
     command_from_name "change-master-password" =
       some ⟨"change-master-password", .change_master_password, .change_master_password⟩ ∧
     command_from_name "rename" = some ⟨"rename", .rename, .rename⟩ ∧
     command_from_name "change" = some ⟨"change", .change, .change⟩ ∧
     command_from_name "search" = some ⟨"search", .search, .search⟩) := by
  refine ⟨?_, ?_, ?_⟩
  · have h := find_command_isSome_iff COMMANDS name
    have hnames : COMMANDS.map Command.name = COMMAND_NAMES := by decide
    rw [hnames] at h
    exact h
  · intro c hc
    exact find_command_name_eq COMMANDS name c hc
  · refine ⟨?_, ?_, ?_, ?_, ?_, ?_, ?_, ?_, ?_, ?_, ?_⟩ <;> decide

/-- Witness for `command_table_exact`: a registered and an unregistered
name at concrete inputs. -/
theorem command_table_exact_witness :
    (command_from_name "search").isSome = true ∧
    command_from_name "frobnicate" = none := by
  refine ⟨(command_table_exact "search").1.mpr (by decide), ?_⟩
  cases hc : command_from_name "frobnicate" with
  | none => rfl
  | some c =>
    have hm : "frobnicate" ∈ COMMAND_NAMES := by
      refine (command_table_exact "frobnicate").1.mp ?_
      rw [hc]
      rfl
    exact absurd hm (by decide)

/-- Rust's `line.starts_with(c)` with a char pattern: the first
character of the line equals `c`. -/
def line_starts_with (line : String) (c : Char) : Bool :=
  line.data.head? = some c

/-- Error outcomes of `get_password_file` (src/main-rooster.rs lines
137-189): a propagated `read_line` error, FAIL_READING_NEW_PASSWORD
from a failed master-password prompt, DONT_CREATE_PASSWORD_FILE on an
answer starting with 'n', a propagated create-open error, and a
propagated non-NotFound open error. -/
inductive GPFErr where
  | ReadErr
  | FailReadingNewPassword
  | DontCreate
  | OpenErr
  | OtherIo
deriving DecidableEq, Repr

/-- The two kinds of `open_password_file(filename, false)` failure the
code distinguishes. -/
inductive OpenErrKind where
  | NotFound
  | Other
deriving DecidableEq, Repr

/-- Collaborators of `get_password_file`: the initial open of the
existing file, the stream of `read_line` results (one per loop
iteration), the master-password prompt, and
`open_password_file(filename, true)`. -/
structure GPFEnv (File : Type) where
  open_existing : Except OpenErrKind File
  stdin : Nat → Except Unit String
  prompt_password : Except Unit String
  open_create : Except Unit File

/-- The create path taken on a line starting with 'y'
(src/main-rooster.rs lines 149-176): prompt a fresh master password,
then open the file with create=true; the run result carries the new
master password alongside the file. -/
def gpf_yes_outcome {File : Type} (env : GPFEnv File) :
    Except GPFErr (Option String × File) :=
  match env.prompt_password with
  | .error _ => .error .FailReadingNewPassword
  | .ok master_password =>
    match env.open_create with
    | .error _ => .error .OpenErr
    | .ok password_file => .ok (some master_password, password_file)

/-- One answer line of the confirmation loop: a line starting with 'y'
takes the create path, one starting with 'n' refuses with
DONT_CREATE_PASSWORD_FILE, anything else re-prompts (`none`). -/
def gpf_step {File : Type} (env : GPFEnv File) (line : String) :
    Option (Except GPFErr (Option String × File)) :=
  if line_starts_with line 'y' then some (gpf_yes_outcome env)
  else if line_starts_with line 'n' then some (.error .DontCreate)
  else none

/-- The confirmation loop of `get_password_file` from iteration `i`,
with `fuel` bounding how many iterations are examined (the Rust loop is
unbounded; `none` means no termination within `fuel` iterations). -/
def gpf_loop {File : Type} (env : GPFEnv File) :
    Nat → Nat → Option (Except GPFErr (Option String × File))
  | _, 0 => none
  | i, fuel + 1 =>
    match env.stdin i with
    | .error _ => some (.error .ReadErr)
    | .ok line =>
      match gpf_step env line with
      | some r => some r
      | none => gpf_loop env (i + 1) fuel

/-- `get_password_file` (src/main-rooster.rs lines 137-189): an
existing file opens with no new master password, NotFound enters the
confirmation loop, any other open error propagates. -/
def get_password_file {File : Type} (env : GPFEnv File) (fuel : Nat) :
    Option (Except GPFErr (Option String × File)) :=
  match env.open_existing with
  | .ok file => some (.ok (none, file))
  | .error .NotFound => gpf_loop env 0 fuel
  | .error .Other => some (.error .OtherIo)

/-- Iteration `i` decides the loop: a read error, or an answer line
starting with 'y' or 'n'. -/
def gpf_decided {File : Type} (env : GPFEnv File) (i : Nat) : Bool :=
  match env.stdin i with
  | .error _ => true
  | .ok line => line_starts_with line 'y' || line_starts_with line 'n'

/-- The loop's outcome at a deciding iteration. -/
def gpf_answer {File : Type} (env : GPFEnv File) (i : Nat) :
    Except GPFErr (Option String × File) :=
  match env.stdin i with
  | .error _ => .error .ReadErr
  | .ok line =>
    if line_starts_with line 'y' then gpf_yes_outcome env
    else .error .DontCreate

lemma gpf_step_none_iff {File : Type} (env : GPFEnv File) (line : String) :
    gpf_step env line = none ↔
      (line_starts_with line 'y' = false ∧ line_starts_with line 'n' = false) := by
  unfold gpf_step
  by_cases hy : line_starts_with line 'y' = true <;>
    by_cases hn : line_starts_with line 'n' = true <;>
      simp [hy, hn]

lemma gpf_decided_of_ok {File : Type} (env : GPFEnv File) (i : Nat) (line : String)
    (hs : env.stdin i = .ok line) :
    gpf_decided env i = (line_starts_with line 'y' || line_starts_with line 'n') := by
  simp [gpf_decided, hs]

lemma gpf_decided_of_err {File : Type} (env : GPFEnv File) (i : Nat)
    (hs : env.stdin i = .error ()) :
    gpf_decided env i = true := by
  simp [gpf_decided, hs]

/-- The loop terminates within `fuel` iterations from `i` exactly when
some iteration below the fuel bound decides it. -/
lemma gpf_loop_isSome_iff {File : Type} (env : GPFEnv File) :
    ∀ (fuel i : Nat),
      (gpf_loop env i fuel).isSome = true ↔
        ∃ k, k < fuel ∧ gpf_decided env (i + k) = true := by
  intro fuel
  induction fuel with
  | zero =>
    intro i
    simp [gpf_loop]
  | succ n ih =>
    intro i
    rcases hs : env.stdin i with u | line
    · cases u
      simp only [gpf_loop, hs]
      constructor
      · intro _
        refine ⟨0, Nat.succ_pos n, ?_⟩
        rw [Nat.add_zero]
        exact gpf_decided_of_err env i hs
      · intro _
        rfl
    · rcases hstep : gpf_step env line with _ | r
      · have hyn := (gpf_step_none_iff env line).mp hstep
        simp only [gpf_loop, hs, hstep]
        rw [ih (i + 1)]
        constructor
        · rintro ⟨k, hk, hd⟩
          refine ⟨k + 1, Nat.succ_lt_succ hk, ?_⟩
          rwa [show i + (k + 1) = i + 1 + k from by omega]
        · rintro ⟨k, hk, hd⟩
          cases k with
          | zero =>
            exfalso
            rw [Nat.add_zero, gpf_decided_of_ok env i line hs, hyn.1, hyn.2] at hd
            exact Bool.noConfusion hd
          | succ k =>
            refine ⟨k, Nat.lt_of_succ_lt_succ hk, ?_⟩
            rwa [show i + 1 + k = i + (k + 1) from by omega]
      · simp only [gpf_loop, hs, hstep]
        constructor
        · intro _
          refine ⟨0, Nat.succ_pos n, ?_⟩
          rw [Nat.add_zero, gpf_decided_of_ok env i line hs]
          cases hy : line_starts_with line 'y' with
          | true => rfl
          | false =>
            cases hn : line_starts_with line 'n' with
            | true => rfl
            | false =>
              exfalso
              rw [(gpf_step_none_iff env line).mpr ⟨hy, hn⟩] at hstep
              exact Option.noConfusion hstep
        · intro _
          rfl

/-- At the first deciding iteration the loop stops with the outcome of
that iteration's answer; the non-deciding lines before it are skipped. -/
lemma gpf_loop_first_decided {File : Type} (env : GPFEnv File) :
    ∀ (k i : Nat), (∀ j, j < k → gpf_decided env (i + j) = false) →
      gpf_decided env (i + k) = true →
      gpf_loop env i (k + 1) = some (gpf_answer env (i + k)) := by
  intro k
  induction k with
  | zero =>
    intro i _ hd
    rw [Nat.add_zero] at hd ⊢
    rcases hs : env.stdin i with u | line
    · cases u
      simp [gpf_loop, hs, gpf_answer]
    · rw [gpf_decided_of_ok env i line hs] at hd
      cases hy : line_starts_with line 'y' with
      | true => simp [gpf_loop, hs, gpf_step, hy, gpf_answer]
      | false =>
        cases hn : line_starts_with line 'n' with
        | true => simp [gpf_loop, hs, gpf_step, hy, hn, gpf_answer]
        | false =>
          exfalso
          rw [hy, hn] at hd
          exact Bool.noConfusion hd
  | succ k ih =>
    intro i hprev hd
    have h0 : gpf_decided env i = false := by
      have := hprev 0 (Nat.succ_pos k)
      rwa [Nat.add_zero] at this
    rcases hs : env.stdin i with u | line
    · cases u
      rw [gpf_decided_of_err env i hs] at h0
      exact Bool.noConfusion h0
    · rw [gpf_decided_of_ok env i line hs] at h0
      have hyn : line_starts_with line 'y' = false ∧ line_starts_with line 'n' = false := by
        cases hy : line_starts_with line 'y' with
        | true => rw [hy] at h0; exact Bool.noConfusion h0
        | false =>
          cases hn : line_starts_with line 'n' with
          | true => rw [hy, hn] at h0; exact Bool.noConfusion h0
          | false => exact ⟨rfl, rfl⟩
      have hstep := (gpf_step_none_iff env line).mpr hyn
      show gpf_loop env i (k + 1 + 1) = _
      simp only [gpf_loop, hs, hstep]
      have harg : ∀ j, j < k → gpf_decided env (i + 1 + j) = false := by
        intro j hj
        have := hprev (j + 1) (Nat.succ_lt_succ hj)
        rwa [show i + (j + 1) = i + 1 + j from by omega] at this
      have hdk : gpf_decided env (i + 1 + k) = true := by
        rwa [show i + (k + 1) = i + 1 + k from by omega] at hd
      have := ih (i + 1) harg hdk
      rwa [show i + 1 + k = i + (k + 1) from by omega] at this

/-- Claim C10: only the first character of an answer line matters to the
confirmation loop; the loop terminates exactly when some line starts
with 'y' or 'n' or a read error occurs; it then returns the first
deciding line's outcome - the create path (the newly created file with
the freshly prompted master password) on 'y', the refusal error on 'n'. -/
theorem confirmation_loop_first_char_decides {File : Type} (env : GPFEnv File) :
    ((∃ fuel, (gpf_loop env 0 fuel).isSome = true) ↔
      (∃ i, gpf_decided env i = true)) ∧
    (∀ i, (∀ j, j < i → gpf_decided env j = false) → gpf_decided env i = true →
      gpf_loop env 0 (i + 1) = some (gpf_answer env i)) ∧
    (∀ line₁ line₂, line₁.data.head? = line₂.data.head? →
      gpf_step env line₁ = gpf_step env line₂) ∧
    (∀ mp f, env.prompt_password = .ok mp → env.open_create = .ok f →
      gpf_yes_outcome env = .ok (some mp, f)) := by
  refine ⟨?_, ?_, ?_, ?_⟩
  · constructor
    · rintro ⟨fuel, hf⟩
      rcases (gpf_loop_isSome_iff env fuel 0).mp hf with ⟨k, _, hd⟩
      rw [Nat.zero_add] at hd
      exact ⟨k, hd⟩
    · rintro ⟨i, hd⟩
      refine ⟨i + 1, (gpf_loop_isSome_iff env (i + 1) 0).mpr ⟨i, Nat.lt_succ_self i, ?_⟩⟩
      rwa [Nat.zero_add]
  · intro i hprev hd
    have harg : ∀ j, j < i → gpf_decided env (0 + j) = false := by
      intro j hj
      rw [Nat.zero_add]
      exact hprev j hj
    have := gpf_loop_first_decided env i 0 harg (by rwa [Nat.zero_add])
    rwa [Nat.zero_add] at this
  · intro line₁ line₂ hh
    simp [gpf_step, line_starts_with, hh]
  · intro mp f hp ho
    simp [gpf_yes_outcome, hp, ho]

/-- Concrete env for the `confirmation_loop_first_char_decides`
witness: first answer "maybe" (re-prompt), second answer "yes". -/
def c10_env : GPFEnv Unit :=
  { open_existing := .error .NotFound
    stdin := fun i => .ok (if i = 0 then "maybe" else "yes")
    prompt_password := .ok "mp"
    open_create := .ok () }

/-- Witness for `confirmation_loop_first_char_decides`: the loop skips
"maybe", accepts "yes" and returns the new file with the prompted
master password. -/
theorem confirmation_loop_first_char_decides_witness :
    gpf_loop c10_env 0 2 = some (.ok (some "mp", ())) := by
  have hprev : ∀ j, j < 1 → gpf_decided c10_env j = false := by
    intro j hj
    have hj0 : j = 0 := Nat.lt_one_iff.mp hj
    subst hj0
    rfl
  have hd : gpf_decided c10_env 1 = true := rfl
  have h := (confirmation_loop_first_char_decides c10_env).2.1 1 hprev hd
  rw [h]
  rfl
